import Mathlib

/-!
Verification of the run-management core of CASMcode_clexmonte.

The development shallowly embeds the data model and operations of the
run-management engine: the incremental-conditions state generator, the
sampling-trigger formulas, the completion (convergence) check, fixture
construction validation, canonical condition construction, and the
conditions input parsers.  Scalar values of the program (C++ doubles) are
modelled as rationals, except where a real-valued power function is
required, where reals are used.
-/

namespace Clexmonte

/-! ## Conditions value maps

monte::ValueMap / monte::VectorValueMap: a mapping from field name to a
numeric vector (a scalar is a size-1 vector).  Modelled as an association
list from `String` to `List ℚ`. -/

/-- A named map of numeric vector values (monte::VectorValueMap). -/
abbrev VectorValueMap := List (String × List ℚ)

/-- Lookup of a field in a `VectorValueMap`. -/
def VectorValueMap.lookup (m : VectorValueMap) (k : String) : Option (List ℚ) :=
  List.lookup k m

/-! ## IncrementalConditionsStateGenerator

Modelled from the spec: the implementation of
clexmonte::IncrementalConditionsStateGenerator is not under src/ (only its
declaration in definitions.hh and its construction in the full-run test
are), so the generator is modelled from the spec contract: given
initial_conditions, conditions_increment, a count n_states and a
dependent_runs flag, it produces state i with conditions obtained by
applying the increment i times to the initial conditions, and next() past
n_states fails with an OutOfStates signal. -/

/-- Apply the conditions increment once: every field present in the
increment map has the increment added componentwise; fields absent from
the increment map are unchanged. -/
def applyIncrement (increment : VectorValueMap) (conditions : VectorValueMap) :
    VectorValueMap :=
  conditions.map (fun p => (p.1,
    match increment.lookup p.1 with
    | none => p.2
    | some dv => List.zipWith (fun a b => a + b) p.2 dv))

/-- Signal raised by a state generator when the sequence is exhausted. -/
inductive GeneratorSignal where
  | OutOfStates
  deriving DecidableEq, Repr

/-- Parameters of the incremental-conditions state generator. -/
structure IncrementalConditionsStateGenerator where
  initial_conditions : VectorValueMap
  conditions_increment : VectorValueMap
  n_states : ℕ
  dependent_runs : Bool

namespace IncrementalConditionsStateGenerator

/-- Conditions of the generated state with index `i`: the increment applied
`i` times to the initial conditions. -/
def conditionsAt (g : IncrementalConditionsStateGenerator) (i : ℕ) :
    VectorValueMap :=
  (applyIncrement g.conditions_increment)^[i] g.initial_conditions

/-- One call to next(): `i` is the number of states already produced.  When
every state has been produced the generator signals OutOfStates, the normal
terminator of the run sequence; otherwise it returns the conditions of
state `i`. -/
def next (g : IncrementalConditionsStateGenerator) (i : ℕ) :
    Except GeneratorSignal VectorValueMap :=
  if g.n_states ≤ i then Except.error GeneratorSignal.OutOfStates
  else Except.ok (g.conditionsAt i)

end IncrementalConditionsStateGenerator

/-- Componentwise linear-increment formula: value plus `i` times the
increment, the closed form the spec states for the generated conditions. -/
def incrementedValue (v dv : List ℚ) (i : ℕ) : List ℚ :=
  List.zipWith (fun a b => a + (i : ℚ) * b) v dv

theorem zipWith_add_incrementedValue (v dv : List ℚ) (i : ℕ) :
    List.zipWith (fun a b => a + b) (incrementedValue v dv i) dv =
      incrementedValue v dv (i + 1) := by
  induction v generalizing dv with
  | nil => cases dv <;> simp [incrementedValue]
  | cons a v ih =>
    cases dv with
    | nil => simp [incrementedValue]
    | cons b dv =>
      simp only [incrementedValue, List.zipWith, List.cons.injEq] at *
      exact ⟨by push_cast; ring, ih dv⟩

theorem incrementedValue_zero (v dv : List ℚ) (h : v.length ≤ dv.length) :
    incrementedValue v dv 0 = v := by
  induction v generalizing dv with
  | nil => simp [incrementedValue]
  | cons a v ih =>
    cases dv with
    | nil => simp at h
    | cons b dv =>
      simp only [incrementedValue, List.zipWith, List.cons.injEq]
      refine ⟨by push_cast; ring, ?_⟩
      simp only [List.length_cons, Nat.succ_le_succ_iff] at h
      exact ih dv h

theorem lookup_applyIncrement (increment m : VectorValueMap) (f : String) :
    (applyIncrement increment m).lookup f =
      (m.lookup f).map (fun v =>
        match increment.lookup f with
        | none => v
        | some dv => List.zipWith (fun a b => a + b) v dv) := by
  induction m with
  | nil => simp [applyIncrement, VectorValueMap.lookup]
  | cons p m ih =>
    obtain ⟨k, v⟩ := p
    by_cases h : f = k
    · subst h
      simp [applyIncrement, VectorValueMap.lookup, List.lookup]
    · have hbeq : (f == k) = false := beq_eq_false_iff_ne.mpr h
      simpa [applyIncrement, VectorValueMap.lookup, List.lookup, hbeq] using ih

theorem lookup_conditionsAt (g : IncrementalConditionsStateGenerator)
    (i : ℕ) (f : String) (v : List ℚ)
    (hv : g.initial_conditions.lookup f = some v)
    (hlen : ∀ dv, g.conditions_increment.lookup f = some dv →
      v.length ≤ dv.length) :
    (g.conditionsAt i).lookup f =
      some (match g.conditions_increment.lookup f with
            | none => v
            | some dv => incrementedValue v dv i) := by
  induction i with
  | zero =>
    cases hinc : g.conditions_increment.lookup f with
    | none => simpa [IncrementalConditionsStateGenerator.conditionsAt] using hv
    | some dv =>
      simpa [IncrementalConditionsStateGenerator.conditionsAt,
        incrementedValue_zero v dv (hlen dv hinc)] using hv
  | succ n ih =>
    have hstep : g.conditionsAt (n + 1) =
        applyIncrement g.conditions_increment (g.conditionsAt n) := by
      simp [IncrementalConditionsStateGenerator.conditionsAt,
        Function.iterate_succ_apply']
    rw [hstep, lookup_applyIncrement, ih]
    cases hinc : g.conditions_increment.lookup f with
    | none => simp [hinc]
    | some dv => simp [hinc, zipWith_add_incrementedValue]

/-- The state generator configured by the canonical full-run test: initial
conditions with temperature 300 and the ZrO composition, increment with
temperature 10, and n_states = 11. -/
def zrOStateGenerator : IncrementalConditionsStateGenerator where
  initial_conditions :=
    [("temperature", [300]), ("mol_composition", [2, 10/6, 2/6])]
  conditions_increment :=
    [("temperature", [10]), ("mol_composition", [0, -1/100, 1/100])]
  n_states := 11
  dependent_runs := true

/-- C1: for every state index i with 0 ≤ i < n_states, the conditions
sequence generator produces state i whose conditions equal
initial_conditions[field] + i * conditions_increment[field] for every
field present in the increment map, while fields absent from the increment
map keep their initial value; and next() fails with an OutOfStates signal
(the normal terminator) exactly when i = n_states. -/
theorem C1_conditions_sequence_generator
    (g : IncrementalConditionsStateGenerator) (i : ℕ) (f : String)
    (v : List ℚ) (hi : i ≤ g.n_states)
    (hv : g.initial_conditions.lookup f = some v)
    (hlen : ∀ dv, g.conditions_increment.lookup f = some dv →
      v.length ≤ dv.length) :
    (g.next i = Except.error GeneratorSignal.OutOfStates ↔ i = g.n_states) ∧
    (i < g.n_states →
      ∃ c, g.next i = Except.ok c ∧
        c.lookup f = some (match g.conditions_increment.lookup f with
          | none => v
          | some dv => incrementedValue v dv i)) := by
  constructor
  · by_cases h : g.n_states ≤ i
    · simp only [IncrementalConditionsStateGenerator.next, if_pos h]
      exact ⟨fun _ => le_antisymm hi h, fun _ => trivial⟩
    · simp only [IncrementalConditionsStateGenerator.next, if_neg h]
      constructor
      · intro hcontra; exact absurd hcontra (by simp)
      · intro heq; exact absurd (le_of_eq heq.symm) h
  · intro hlt
    refine ⟨g.conditionsAt i, ?_, ?_⟩
    · simp [IncrementalConditionsStateGenerator.next, not_le.mpr hlt]
    · exact lookup_conditionsAt g i f v hv hlen

/-- C1 witness: the test instance with n_states = 11, initial temperature
300 and increment 10: state 4 has temperature 300 + 10 * 4 and next() at
i = 11 signals OutOfStates. -/
theorem C1_conditions_sequence_generator_witness :
    zrOStateGenerator.next 11 = Except.error GeneratorSignal.OutOfStates ∧
    ∃ c, zrOStateGenerator.next 4 = Except.ok c ∧
      c.lookup "temperature" = some [340] := by
  have hlen : ∀ dv,
      zrOStateGenerator.conditions_increment.lookup "temperature" = some dv →
      ([(300 : ℚ)] : List ℚ).length ≤ dv.length := by
    intro dv h
    have h10 : zrOStateGenerator.conditions_increment.lookup "temperature" =
        some [10] := by decide
    rw [h10] at h
    injection h with h
    rw [← h]
    decide
  constructor
  · exact (C1_conditions_sequence_generator zrOStateGenerator 11 "temperature"
      [300] (le_refl 11) (by decide) hlen).1.mpr rfl
  · obtain ⟨c, hc1, hc2⟩ :=
      (C1_conditions_sequence_generator zrOStateGenerator 4 "temperature"
        [300] (by decide) (by decide) hlen).2 (by decide)
    refine ⟨c, hc1, ?_⟩
    rw [hc2]
    have h10 : zrOStateGenerator.conditions_increment.lookup "temperature" =
        some [10] := by decide
    rw [h10]
    simp only [incrementedValue, List.zipWith]
    norm_num

/-! ## SamplingParams and the sample trigger formulas

Modelled from the spec: the implementations of monte::SamplingParams and
monte::StateSampler are not under src/ (only their configuration in the
full-run test and the trigger formulas documented there, at
src/unnamed/part_000 lines 222-246, are), so the trigger formulas are
modelled from those documented formulas, which the spec restates:

  LINEAR:  sample/pass = round( begin + (period / samples_per_period) * n )
                  time =        begin + (period / samples_per_period) * n
  LOG:     sample/pass = round( begin + period ^ ((n + shift) / samples_per_period) )
                  time =        begin + period ^ ((n + shift) / samples_per_period)
-/

/-- Sampling mode: sample by step, by pass, or by time. -/
inductive SAMPLE_MODE where
  | BY_STEP | BY_PASS | BY_TIME
  deriving DecidableEq, Repr

/-- Sampling method: linear or logarithmic spacing of samples. -/
inductive SAMPLE_METHOD where
  | LINEAR | LOG
  deriving DecidableEq, Repr

/-- Value of the n-th LINEAR sample trigger (real-valued form, used
directly in time mode). -/
def linearTriggerValue (b p spp : ℚ) (n : ℕ) : ℚ :=
  b + (p / spp) * n

/-- Value of the n-th LINEAR sample trigger rounded to the nearest
integer, as compared against step and pass counters. -/
def linearTriggerCount (b p spp : ℚ) (n : ℕ) : ℤ :=
  round (linearTriggerValue b p spp n)

/-- Value of the n-th LOG sample trigger (real-valued form).  The power is
a real-number power, as computed by the program on doubles. -/
noncomputable def logTriggerValue (b p shift spp : ℝ) (n : ℕ) : ℝ :=
  b + p ^ (((n : ℝ) + shift) / spp)

/-- C2: with sample_method LINEAR the n-th sample trigger value equals
begin + (period / samples_per_period) * n, rounded to the nearest integer
for step and pass modes; with begin = 0, period = 1, samples_per_period = 1
the trigger for index n is exactly n. -/
theorem C2_linear_trigger (b p spp : ℚ) (n : ℕ) :
    linearTriggerValue b p spp n = b + (p / spp) * n ∧
    linearTriggerCount b p spp n = round (b + (p / spp) * (n : ℚ)) ∧
    linearTriggerValue 0 1 1 n = n ∧
    linearTriggerCount 0 1 1 n = (n : ℤ) := by
  refine ⟨rfl, rfl, by simp [linearTriggerValue], ?_⟩
  simp [linearTriggerCount, linearTriggerValue, round_natCast]

/-- C7: with sample_method LOG the n-th sample trigger value equals
begin + period ^ ((n + shift) / samples_per_period); with begin = 0,
period = 2, samples_per_period = 1, shift = 0 the trigger for index n is
exactly 2 ^ n. -/
theorem C7_log_trigger (b p shift spp : ℝ) (n : ℕ) :
    logTriggerValue b p shift spp n = b + p ^ (((n : ℝ) + shift) / spp) ∧
    logTriggerValue 0 2 0 1 n = 2 ^ n := by
  refine ⟨rfl, ?_⟩
  simp [logTriggerValue, Real.rpow_natCast]

/-- C3 counterexample: the claim asserts monotone non-decrease of the
trigger for every period > 0 and samples_per_period > 0 for both methods,
but with the LOG method and period = 1/2 (which satisfies period > 0,
samples_per_period = 1 > 0) the trigger strictly decreases from index 0 to
index 1. -/
theorem C3_trigger_monotone_counterexample :
    (0 : ℝ) < 1/2 ∧ (0 : ℝ) < 1 ∧
    logTriggerValue 0 (1/2) 0 1 1 < logTriggerValue 0 (1/2) 0 1 0 := by
  refine ⟨by norm_num, by norm_num, ?_⟩
  have h1 : logTriggerValue 0 (1/2) 0 1 1 = 1/2 := by
    simp [logTriggerValue]
  have h0 : logTriggerValue 0 (1/2) 0 1 0 = 1 := by
    simp [logTriggerValue]
  rw [h0, h1]
  norm_num

/-- C3 (amended): trigger values are monotone non-decreasing in the sample
index for the LINEAR method (real-valued and rounded) whenever period > 0
and samples_per_period > 0, and for the LOG method whenever period ≥ 1 and
samples_per_period > 0 (for 0 < period < 1 the LOG trigger is decreasing),
so a single forward-only counter comparison suffices. -/
theorem C3_trigger_monotone (b p spp : ℚ) (b2 p2 shift spp2 : ℝ) (m n : ℕ)
    (hmn : m ≤ n) :
    (0 < p → 0 < spp →
      linearTriggerValue b p spp m ≤ linearTriggerValue b p spp n ∧
      linearTriggerCount b p spp m ≤ linearTriggerCount b p spp n) ∧
    (1 ≤ p2 → 0 < spp2 →
      logTriggerValue b2 p2 shift spp2 m ≤ logTriggerValue b2 p2 shift spp2 n) := by
  constructor
  · intro hp hspp
    have hval : linearTriggerValue b p spp m ≤ linearTriggerValue b p spp n := by
      unfold linearTriggerValue
      have hc : (m : ℚ) ≤ (n : ℚ) := by exact_mod_cast hmn
      have hnn : 0 ≤ p / spp := le_of_lt (div_pos hp hspp)
      exact add_le_add_left (mul_le_mul_of_nonneg_left hc hnn) b
    refine ⟨hval, ?_⟩
    unfold linearTriggerCount
    rw [round_eq, round_eq]
    exact Int.floor_le_floor (by linarith)
  · intro hp2 hspp2
    unfold logTriggerValue
    have hc : (m : ℝ) + shift ≤ (n : ℝ) + shift := by
      have hmn2 : (m : ℝ) ≤ (n : ℝ) := by exact_mod_cast hmn
      linarith
    have hexp : ((m : ℝ) + shift) / spp2 ≤ ((n : ℝ) + shift) / spp2 :=
      div_le_div_of_nonneg_right hc (le_of_lt hspp2)
    exact add_le_add_left (Real.rpow_le_rpow_of_exponent_le hp2 hexp) b2

/-- C3 witness: the amended monotonicity applied at concrete parameters,
LINEAR with period 1 and LOG with period 2, from index 2 to index 5. -/
theorem C3_trigger_monotone_witness :
    (linearTriggerValue 0 1 1 2 ≤ linearTriggerValue 0 1 1 5 ∧
      linearTriggerCount 0 1 1 2 ≤ linearTriggerCount 0 1 1 5) ∧
    logTriggerValue 0 2 0 1 2 ≤ logTriggerValue 0 2 0 1 5 := by
  have h := C3_trigger_monotone 0 1 1 0 2 0 1 2 5 (by norm_num)
  exact ⟨h.1 (by norm_num) (by norm_num), h.2 (by norm_num) (by norm_num)⟩

/-! ## CompletionCheck

Modelled from the spec: the implementation of monte::CompletionCheck is
not under src/ (only its configuration in the full-run test is), so the
convergence checker is modelled from the spec: criteria are evaluated in a
fixed order with first match winning (min pending, then max cutoff, then
precision), and the whole evaluation is gated by check_begin and
check_frequency, returning a cached result otherwise.  The statistical
half-width estimator itself is out of this model; the evaluation receives
the computed half-width for each configured entry as input. -/

/-- Cutoff check parameters (monte::CutoffCheckParams): optional min and
max bounds on the sample count and on the step, pass or time amount. -/
structure CutoffCheckParams where
  min_count : Option ℕ
  max_count : Option ℕ
  min_sample : Option ℚ
  max_sample : Option ℚ

/-- Deciding criterion reported in a completion check result. -/
inductive CompletionCriterion where
  | minPending | maxCutoff | precisionSatisfied | notConverged
  deriving DecidableEq, Repr

/-- Completion check parameters (monte::CompletionCheckParams). -/
structure CompletionCheckParams where
  cutoff_params : CutoffCheckParams
  requested_precision : List (String × ℚ)
  confidence : ℚ
  check_begin : ℕ
  check_frequency : ℕ

/-- Result of a completion check: the completion flag, the deciding
criterion, and per-entry convergence diagnostics. -/
structure CompletionCheckResult where
  is_complete : Bool
  criterion : CompletionCriterion
  converged : List (String × Bool)
  deriving DecidableEq, Repr

/-- True when some configured min_count or min_sample bound is not yet
met. -/
def minPendingOf (c : CutoffCheckParams) (count : ℕ) (s : ℚ) : Bool :=
  (match c.min_count with
   | none => false
   | some m => decide (count < m)) ||
  (match c.min_sample with
   | none => false
   | some m => decide (s < m))

/-- True when some configured max_count or max_sample bound is reached. -/
def maxReachedOf (c : CutoffCheckParams) (count : ℕ) (s : ℚ) : Bool :=
  (match c.max_count with
   | none => false
   | some m => decide (m ≤ count)) ||
  (match c.max_sample with
   | none => false
   | some m => decide (m ≤ s))

/-- One evaluation of the completion criteria, in order with first match
winning: min pending, then max cutoff, then precision.  `halfWidth` gives
the computed confidence-interval half-width for each configured entry; an
entry is converged iff its half-width is at most its requested precision;
precision is satisfied only when at least one entry is configured and
every configured entry is converged. -/
def evaluateCompletionCheck (p : CompletionCheckParams) (count : ℕ) (s : ℚ)
    (halfWidth : String → ℚ) : CompletionCheckResult :=
  let conv := p.requested_precision.map
    (fun e => (e.1, decide (halfWidth e.1 ≤ e.2)))
  if minPendingOf p.cutoff_params count s then
    ⟨false, CompletionCriterion.minPending, conv⟩
  else if maxReachedOf p.cutoff_params count s then
    ⟨true, CompletionCriterion.maxCutoff, conv⟩
  else if !p.requested_precision.isEmpty && conv.all (fun e => e.2) then
    ⟨true, CompletionCriterion.precisionSatisfied, conv⟩
  else
    ⟨false, CompletionCriterion.notConverged, conv⟩

/-- C4: whenever any configured min_count or min_sample bound is not yet
met, the completion check result is not complete with deciding criterion
"min pending", for every precision input and even when a max cutoff is
also reached. -/
theorem C4_min_pending_overrides (p : CompletionCheckParams) (count : ℕ)
    (s : ℚ) (hw : String → ℚ)
    (hmin : (∃ m, p.cutoff_params.min_count = some m ∧ count < m) ∨
            (∃ m, p.cutoff_params.min_sample = some m ∧ s < m)) :
    (evaluateCompletionCheck p count s hw).is_complete = false ∧
    (evaluateCompletionCheck p count s hw).criterion =
      CompletionCriterion.minPending := by
  have hb : minPendingOf p.cutoff_params count s = true := by
    rcases hmin with ⟨m, hm, hlt⟩ | ⟨m, hm, hlt⟩ <;>
      simp [minPendingOf, hm, hlt]
  simp [evaluateCompletionCheck, hb]

/-- C4 witness: min_count 10 pending at count 3 decides "min pending"
although max_count 2 is reached and the one configured precision entry is
satisfied. -/
theorem C4_min_pending_overrides_witness :
    (evaluateCompletionCheck
      ⟨⟨some 10, some 2, none, none⟩, [("formation_energy", 1)], 95/100, 10, 1⟩
      3 3 (fun _ => 0)).is_complete = false ∧
    (evaluateCompletionCheck
      ⟨⟨some 10, some 2, none, none⟩, [("formation_energy", 1)], 95/100, 10, 1⟩
      3 3 (fun _ => 0)).criterion = CompletionCriterion.minPending :=
  C4_min_pending_overrides _ 3 3 (fun _ => 0)
    (Or.inl ⟨10, rfl, by norm_num⟩)

/-- The completion check parameters of the full-run test: max_count = 100,
no other cutoff, and (for this claim) no precision requested. -/
def completionCheckParams100 : CompletionCheckParams where
  cutoff_params := ⟨none, some 100, none, none⟩
  requested_precision := []
  confidence := 95/100
  check_begin := 10
  check_frequency := 10

/-- C5: with max_count = 100 and no requested precision, is_complete is
false for every sample count below 100 and true from count 100 on, first
true exactly at count 100, with deciding criterion "max cutoff", which is
distinct from the precision-convergence criterion. -/
theorem C5_max_count_cutoff (count : ℕ) (s : ℚ) (hw : String → ℚ) :
    ((evaluateCompletionCheck completionCheckParams100 count s hw).is_complete =
      true ↔ 100 ≤ count) ∧
    (evaluateCompletionCheck completionCheckParams100 count s hw).criterion ≠
      CompletionCriterion.precisionSatisfied ∧
    (100 ≤ count →
      (evaluateCompletionCheck completionCheckParams100 count s hw).criterion =
        CompletionCriterion.maxCutoff) := by
  by_cases h : 100 ≤ count
  · simp [evaluateCompletionCheck, completionCheckParams100, minPendingOf,
      maxReachedOf, h]
  · simp [evaluateCompletionCheck, completionCheckParams100, minPendingOf,
      maxReachedOf, h]

/-- C5 witness: at counts 99 and 100 the check is incomplete and complete
respectively, the latter by max cutoff. -/
theorem C5_max_count_cutoff_witness :
    (evaluateCompletionCheck completionCheckParams100 99 99 (fun _ => 0)).is_complete
      = false ∧
    (evaluateCompletionCheck completionCheckParams100 100 100 (fun _ => 0)).is_complete
      = true ∧
    (evaluateCompletionCheck completionCheckParams100 100 100 (fun _ => 0)).criterion
      = CompletionCriterion.maxCutoff := by
  refine ⟨?_, ?_, ?_⟩
  · have h := (C5_max_count_cutoff 99 99 (fun _ => 0)).1
    simp only [show ¬ (100 ≤ 99) by norm_num, iff_false] at h
    simpa using h
  · exact (C5_max_count_cutoff 100 100 (fun _ => 0)).1.mpr (by norm_num)
  · exact (C5_max_count_cutoff 100 100 (fun _ => 0)).2.2 (by norm_num)

/-- Cached state of a CompletionCheck object between invocations: the
sample count at the last criteria evaluation and the cached result. -/
structure CompletionCheckState where
  count_at_last_check : ℕ
  cached_result : CompletionCheckResult
  deriving DecidableEq, Repr

/-- One invocation of the completion check: the criteria are re-evaluated
only when the total number of samples is at least check_begin and the
number of samples since the last evaluation is at least check_frequency;
otherwise the previously cached result is returned and the state is left
unchanged. -/
def completionCheckCall (p : CompletionCheckParams)
    (st : CompletionCheckState) (count : ℕ) (s : ℚ) (hw : String → ℚ) :
    CompletionCheckResult × CompletionCheckState :=
  if p.check_begin ≤ count ∧
      p.check_frequency ≤ count - st.count_at_last_check then
    let r := evaluateCompletionCheck p count s hw
    (r, ⟨count, r⟩)
  else
    (st.cached_result, st)

/-- C6: the completion criteria are re-evaluated exactly when the total
sample count is at least check_begin and the samples taken since the last
check number at least check_frequency; in every other call the cached
result is returned unchanged and the checker state is not modified. -/
theorem C6_check_gating (p : CompletionCheckParams)
    (st : CompletionCheckState) (count : ℕ) (s : ℚ) (hw : String → ℚ) :
    (¬ (p.check_begin ≤ count ∧
        p.check_frequency ≤ count - st.count_at_last_check) →
      completionCheckCall p st count s hw = (st.cached_result, st)) ∧
    ((p.check_begin ≤ count ∧
        p.check_frequency ≤ count - st.count_at_last_check) →
      completionCheckCall p st count s hw =
        (evaluateCompletionCheck p count s hw,
          ⟨count, evaluateCompletionCheck p count s hw⟩)) := by
  constructor
  · intro h
    simp [completionCheckCall, h]
  · intro h
    simp [completionCheckCall, h]

/-- C6 witness: with check_begin 10 and check_frequency 10, a call at
count 5 returns the cached result unchanged and a call at count 20 with
last check at 5 re-evaluates. -/
theorem C6_check_gating_witness :
    completionCheckCall completionCheckParams100
        ⟨0, ⟨false, CompletionCriterion.notConverged, []⟩⟩ 5 5 (fun _ => 0) =
      (⟨false, CompletionCriterion.notConverged, []⟩,
        ⟨0, ⟨false, CompletionCriterion.notConverged, []⟩⟩) ∧
    completionCheckCall completionCheckParams100
        ⟨5, ⟨false, CompletionCriterion.notConverged, []⟩⟩ 20 20 (fun _ => 0) =
      (evaluateCompletionCheck completionCheckParams100 20 20 (fun _ => 0),
        ⟨20, evaluateCompletionCheck completionCheckParams100 20 20 (fun _ => 0)⟩) := by
  constructor
  · exact (C6_check_gating completionCheckParams100
      ⟨0, ⟨false, CompletionCriterion.notConverged, []⟩⟩ 5 5 (fun _ => 0)).1
      (by simp [completionCheckParams100])
  · exact (C6_check_gating completionCheckParams100
      ⟨5, ⟨false, CompletionCriterion.notConverged, []⟩⟩ 20 20 (fun _ => 0)).2
      (by simp [completionCheckParams100])

/-! ## Sampling fixture construction validation

Modelled from the spec: the fixture constructor and the set_value helpers
are not under src/ (only their call sites in the full-run test are), so
construction-time validation is modelled from the spec invariant: every
name listed in sampler_names or in a requested_precision entry must
correspond to a registered sampling function, validated eagerly, with
construction failing and reporting the offending name otherwise. -/

/-- A constructed sampling fixture (only the validated configuration is
relevant here). -/
structure SamplingFixture where
  sampler_names : List String
  requested_precision : List (String × ℚ)
  deriving DecidableEq, Repr

/-- Every sampling-function name a fixture configuration refers to: the
sampler_names list and the names of the requested_precision entries. -/
def requestedNames (sampler_names : List String)
    (requested_precision : List (String × ℚ)) : List String :=
  sampler_names ++ requested_precision.map (fun e => e.1)

/-- Fixture construction: validates every referred name against the
registered sampling functions and fails, reporting the offending name,
when some name is not registered. -/
def makeSamplingFixture (registered : List String)
    (sampler_names : List String)
    (requested_precision : List (String × ℚ)) :
    Except String SamplingFixture :=
  match (requestedNames sampler_names requested_precision).find?
      (fun nm => !(registered.contains nm)) with
  | some bad => Except.error ("Error: not a sampling function: " ++ bad)
  | none => Except.ok ⟨sampler_names, requested_precision⟩

/-- C8: if some name in sampler_names or in a requested_precision entry
does not correspond to a registered sampling function, fixture
construction fails, reporting an offending unregistered name, and no
fixture is ever constructed (so the error cannot first surface mid-run). -/
theorem C8_eager_validation (registered sampler_names : List String)
    (requested_precision : List (String × ℚ)) (nm : String)
    (hmem : nm ∈ requestedNames sampler_names requested_precision)
    (hreg : nm ∉ registered) :
    (∃ bad, makeSamplingFixture registered sampler_names requested_precision =
        Except.error ("Error: not a sampling function: " ++ bad) ∧
        bad ∈ requestedNames sampler_names requested_precision ∧
        bad ∉ registered) ∧
    ∀ fx, makeSamplingFixture registered sampler_names requested_precision ≠
      Except.ok fx := by
  have hex : ∃ x ∈ requestedNames sampler_names requested_precision,
      (!(registered.contains x)) = true := ⟨nm, hmem, by simpa using hreg⟩
  have hsome : ((requestedNames sampler_names requested_precision).find?
      (fun x => !(registered.contains x))).isSome := by
    rw [List.find?_isSome]
    exact hex
  obtain ⟨bad, hbad⟩ := Option.isSome_iff_exists.mp hsome
  have hbadp := List.find?_some hbad
  have hbadmem : bad ∈ requestedNames sampler_names requested_precision :=
    List.mem_of_find?_eq_some hbad
  have hfix : makeSamplingFixture registered sampler_names requested_precision =
      Except.error ("Error: not a sampling function: " ++ bad) := by
    unfold makeSamplingFixture
    rw [hbad]
  constructor
  · exact ⟨bad, hfix, hbadmem, by simpa using hbadp⟩
  · intro fx hcontra
    rw [hfix] at hcontra
    exact absurd hcontra (by simp)

/-- C8 witness: with only "temperature" registered, a fixture listing the
unregistered sampler name "bogus" fails to construct. -/
theorem C8_eager_validation_witness :
    (∃ bad, makeSamplingFixture ["temperature"] ["temperature", "bogus"] [] =
        Except.error ("Error: not a sampling function: " ++ bad) ∧
        bad ∈ requestedNames ["temperature", "bogus"] [] ∧
        bad ∉ ["temperature"]) ∧
    ∀ fx, makeSamplingFixture ["temperature"] ["temperature", "bogus"] [] ≠
      Except.ok fx :=
  C8_eager_validation ["temperature"] ["temperature", "bogus"] [] "bogus"
    (by decide) (by decide)

/-! ## Canonical condition construction

Modelled from the spec: the implementations of
clexmonte::canonical::make_conditions, make_conditions_increment and
composition::CompositionConverter are not under src/ (only their unit
tests and the documented contract of the conditions parsers are).  The
converter is the standard linear parameterization of composition: the mol
composition for parametric composition x is
origin + sum_k x_k * (end_member_k - origin), and a composition increment
for parametric increment x is sum_k x_k * (end_member_k - origin).  The
composition argument is a dict keyed either by component names (counts
per unit cell, all components included) or by parametric-composition axis
names "a", "b", ... (all axes included), as the parser contract in
src/unnamed/part_001 documents; the result maps "temperature" to a size-1
vector and "mol_composition" to a vector in the converter's component
order. -/

/-- Composition axes (composition::CompositionConverter): component names,
the origin composition, and one end-member composition per axis. -/
structure CompositionConverter where
  components : List String
  origin : List ℚ
  end_members : List (List ℚ)
  deriving DecidableEq, Repr

/-- Name of the k-th parametric composition axis: "a", "b", "c", ... -/
def axisName (k : ℕ) : String :=
  String.singleton (Char.ofNat (97 + k))

/-- The axis names of a converter, one per end member. -/
def CompositionConverter.axisNames (conv : CompositionConverter) :
    List String :=
  (List.range conv.end_members.length).map axisName

/-- Componentwise sum of two vectors. -/
def vadd (v w : List ℚ) : List ℚ :=
  List.zipWith (fun a b => a + b) v w

/-- Mol-composition change produced by parametric-composition values x:
component i changes by sum_k x_k * (end_member_k[i] - origin[i]). -/
def CompositionConverter.paramToMolIncrement (conv : CompositionConverter)
    (x : List ℚ) : List ℚ :=
  (List.range conv.origin.length).map (fun i =>
    (List.zipWith (fun xk ek => xk * (ek.getD i 0 - conv.origin.getD i 0))
      x conv.end_members).sum)

/-- Mol composition for parametric-composition values x:
origin + sum_k x_k * (end_member_k - origin). -/
def CompositionConverter.paramToMol (conv : CompositionConverter)
    (x : List ℚ) : List ℚ :=
  vadd conv.origin (conv.paramToMolIncrement x)

/-- True when the dict is a per-component counts input: nonempty, every
key a component name, and every component included. -/
def isCountsInput (conv : CompositionConverter)
    (input : List (String × ℚ)) : Bool :=
  !input.isEmpty &&
  input.all (fun e => conv.components.contains e.1) &&
  conv.components.all (fun c => (List.lookup c input).isSome)

/-- True when the dict is a parametric-composition input: nonempty, every
key an axis name, and every axis included. -/
def isAxesInput (conv : CompositionConverter)
    (input : List (String × ℚ)) : Bool :=
  !input.isEmpty &&
  input.all (fun e => conv.axisNames.contains e.1) &&
  conv.axisNames.all (fun a => (List.lookup a input).isSome)

/-- Mol composition from a dict keyed by component names or by axis
names; fails when the dict is neither a full counts input nor a full
parametric input. -/
def make_mol_composition (conv : CompositionConverter)
    (input : List (String × ℚ)) : Except String (List ℚ) :=
  if isCountsInput conv input then
    Except.ok (conv.components.map (fun c => (List.lookup c input).getD 0))
  else if isAxesInput conv input then
    Except.ok (conv.paramToMol
      (conv.axisNames.map (fun a => (List.lookup a input).getD 0)))
  else
    Except.error "Error: invalid composition input"

/-- Mol-composition increment from a dict keyed by component names or by
axis names. -/
def make_mol_composition_increment (conv : CompositionConverter)
    (input : List (String × ℚ)) : Except String (List ℚ) :=
  if isCountsInput conv input then
    Except.ok (conv.components.map (fun c => (List.lookup c input).getD 0))
  else if isAxesInput conv input then
    Except.ok (conv.paramToMolIncrement
      (conv.axisNames.map (fun a => (List.lookup a input).getD 0)))
  else
    Except.error "Error: invalid composition increment input"

/-- canonical::make_conditions: a map with a size-1 "temperature" vector
and the "mol_composition" vector. -/
def make_conditions (temperature : ℚ) (conv : CompositionConverter)
    (comp : List (String × ℚ)) : Except String VectorValueMap :=
  (make_mol_composition conv comp).map (fun mol =>
    [("temperature", [temperature]), ("mol_composition", mol)])

/-- canonical::make_conditions_increment: a map with a size-1
"temperature" increment and the "mol_composition" increment vector. -/
def make_conditions_increment (temperature : ℚ) (conv : CompositionConverter)
    (comp : List (String × ℚ)) : Except String VectorValueMap :=
  (make_mol_composition_increment conv comp).map (fun mol =>
    [("temperature", [temperature]), ("mol_composition", mol)])

theorem map_getD_lookup_zip (l1 : List String) (l2 : List ℚ)
    (hnd : l1.Nodup) (hlen : l1.length = l2.length) :
    l1.map (fun c => (List.lookup c (l1.zip l2)).getD 0) = l2 := by
  induction l1 generalizing l2 with
  | nil =>
    cases l2 with
    | nil => rfl
    | cons q l2 => simp at hlen
  | cons c l1 ih =>
    cases l2 with
    | nil => simp at hlen
    | cons q l2 =>
      simp only [List.nodup_cons] at hnd
      simp only [List.length_cons, Nat.succ.injEq] at hlen
      have hhead : (List.lookup c ((c, q) :: l1.zip l2)).getD 0 = q := by
        simp [List.lookup]
      have hmaps : l1.map
          (fun a => (List.lookup a ((c, q) :: l1.zip l2)).getD 0) =
          l1.map (fun a => (List.lookup a (l1.zip l2)).getD 0) := by
        apply List.map_congr_left
        intro a ha
        have hne : (a == c) = false := beq_eq_false_iff_ne.mpr
          (fun h => hnd.1 (h ▸ ha))
        simp [List.lookup, hne]
      rw [List.zip_cons_cons, List.map_cons, hhead, hmaps, ih l2 hnd.2 hlen]

theorem lookup_zip_isSome (l1 : List String) (l2 : List ℚ) (c : String)
    (hc : c ∈ l1) (hlen : l1.length ≤ l2.length) :
    (List.lookup c (l1.zip l2)).isSome = true := by
  induction l1 generalizing l2 with
  | nil => simp at hc
  | cons a l1 ih =>
    cases l2 with
    | nil => simp at hlen
    | cons q l2 =>
      by_cases h : c = a
      · subst h
        simp [List.lookup]
      · have hne : (c == a) = false := beq_eq_false_iff_ne.mpr h
        have hc2 : c ∈ l1 := by
          rcases List.mem_cons.mp hc with h1 | h1
          · exact absurd h1 h
          · exact h1
        simp only [List.length_cons, Nat.succ_le_succ_iff] at hlen
        simpa [List.lookup, hne] using ih l2 hc2 hlen

theorem isCountsInput_zip_components (conv : CompositionConverter)
    (l2 : List ℚ) (hne : conv.components ≠ [])
    (hlen : conv.components.length = l2.length) :
    isCountsInput conv (conv.components.zip l2) = true := by
  unfold isCountsInput
  refine (Bool.and_eq_true _ _).mpr ⟨(Bool.and_eq_true _ _).mpr ⟨?_, ?_⟩, ?_⟩
  · simp only [Bool.not_eq_true']
    rw [List.isEmpty_eq_false_iff_exists_mem]
    cases hcomp : conv.components with
    | nil => exact absurd hcomp hne
    | cons c l1 =>
      cases l2 with
      | nil => rw [hcomp] at hlen; simp at hlen
      | cons q l2 => exact ⟨(c, q), by simp⟩
  · rw [List.all_eq_true]
    intro e he
    have hmem := (List.of_mem_zip he).1
    simpa using hmem
  · rw [List.all_eq_true]
    intro c hc
    simpa using lookup_zip_isSome conv.components l2 c hc (le_of_eq hlen)

theorem isAxesInput_zip_axisNames (conv : CompositionConverter)
    (x : List ℚ) (hne : conv.end_members ≠ [])
    (hlen : x.length = conv.end_members.length) :
    isAxesInput conv (conv.axisNames.zip x) = true := by
  have hanlen : conv.axisNames.length = conv.end_members.length := by
    simp [CompositionConverter.axisNames]
  unfold isAxesInput
  refine (Bool.and_eq_true _ _).mpr ⟨(Bool.and_eq_true _ _).mpr ⟨?_, ?_⟩, ?_⟩
  · simp only [Bool.not_eq_true']
    rw [List.isEmpty_eq_false_iff_exists_mem]
    cases han : conv.axisNames with
    | nil =>
      rw [han] at hanlen
      exact absurd (List.length_eq_zero.mp hanlen.symm) hne
    | cons a l1 =>
      cases hx : x with
      | nil =>
        rw [hx] at hlen
        rw [← hlen] at hanlen
        rw [han] at hanlen
        simp at hanlen
      | cons q l2 => exact ⟨(a, q), by simp⟩
  · rw [List.all_eq_true]
    intro e he
    have hmem := (List.of_mem_zip he).1
    simpa using hmem
  · rw [List.all_eq_true]
    intro a ha
    refine Eq.mpr ?_ (lookup_zip_isSome conv.axisNames x a ha (le_of_eq ?_))
    · simp
    · rw [hanlen, hlen]

theorem isCountsInput_zip_axisNames_eq_false (conv : CompositionConverter)
    (x : List ℚ) (hne : conv.end_members ≠ [])
    (hlen : x.length = conv.end_members.length)
    (hdisj : ∀ a ∈ conv.axisNames, a ∉ conv.components) :
    isCountsInput conv (conv.axisNames.zip x) = false := by
  have hanlen : conv.axisNames.length = conv.end_members.length := by
    simp [CompositionConverter.axisNames]
  cases han : conv.axisNames with
  | nil =>
    rw [han] at hanlen
    exact absurd (List.length_eq_zero.mp hanlen.symm) hne
  | cons a l1 =>
    cases hx : x with
    | nil =>
      rw [hx] at hlen
      rw [← hlen] at hanlen
      rw [han] at hanlen
      simp at hanlen
    | cons q l2 =>
      have hnotc : a ∉ conv.components := hdisj a (by rw [han]; simp)
      unfold isCountsInput
      have hall : ((a :: l1).zip (q :: l2)).all
          (fun e => conv.components.contains e.1) = false := by
        rw [List.all_eq_false]
        exact ⟨(a, q), by simp, by simpa using hnotc⟩
      rw [hall]
      simp

/-- C9: make_conditions and make_conditions_increment return a map with
exactly two entries, a size-1 "temperature" vector equal to T and a
"mol_composition" vector with one component per system component in the
converter's component order; and giving the composition as
parametric-composition axis values produces exactly the same result as
giving the equivalent per-component counts. -/
theorem C9_make_conditions_equivalence (T : ℚ) (conv : CompositionConverter)
    (x : List ℚ)
    (hnd : conv.components.Nodup)
    (hcne : conv.components ≠ [])
    (hand : conv.axisNames.Nodup)
    (hdisj : ∀ a ∈ conv.axisNames, a ∉ conv.components)
    (hx : x.length = conv.end_members.length)
    (hene : conv.end_members ≠ [])
    (horg : conv.origin.length = conv.components.length) :
    make_conditions T conv (conv.components.zip (conv.paramToMol x)) =
      Except.ok [("temperature", [T]), ("mol_composition", conv.paramToMol x)] ∧
    make_conditions T conv (conv.axisNames.zip x) =
      Except.ok [("temperature", [T]), ("mol_composition", conv.paramToMol x)] ∧
    make_conditions_increment T conv
        (conv.components.zip (conv.paramToMolIncrement x)) =
      Except.ok [("temperature", [T]),
        ("mol_composition", conv.paramToMolIncrement x)] ∧
    make_conditions_increment T conv (conv.axisNames.zip x) =
      Except.ok [("temperature", [T]),
        ("mol_composition", conv.paramToMolIncrement x)] ∧
    (conv.paramToMol x).length = conv.components.length ∧
    (conv.paramToMolIncrement x).length = conv.components.length := by
  have hinclen : (conv.paramToMolIncrement x).length = conv.components.length := by
    simp [CompositionConverter.paramToMolIncrement, horg]
  have hmollen : (conv.paramToMol x).length = conv.components.length := by
    simp only [CompositionConverter.paramToMol, vadd, List.length_zipWith,
      hinclen, horg]
    exact min_self _
  have hanlen : conv.axisNames.length = x.length := by
    simp [CompositionConverter.axisNames, hx]
  have haxes : conv.axisNames.map
      (fun a => (List.lookup a (conv.axisNames.zip x)).getD 0) = x :=
    map_getD_lookup_zip conv.axisNames x hand hanlen
  have hmol : make_mol_composition conv
      (conv.components.zip (conv.paramToMol x)) =
      Except.ok (conv.paramToMol x) := by
    unfold make_mol_composition
    rw [isCountsInput_zip_components conv _ hcne hmollen.symm]
    rw [if_pos rfl]
    rw [map_getD_lookup_zip conv.components _ hnd hmollen.symm]
  have hmolax : make_mol_composition conv (conv.axisNames.zip x) =
      Except.ok (conv.paramToMol x) := by
    unfold make_mol_composition
    rw [isCountsInput_zip_axisNames_eq_false conv x hene hx hdisj]
    rw [if_neg (by simp)]
    rw [isAxesInput_zip_axisNames conv x hene hx]
    rw [if_pos rfl, haxes]
  have hinc : make_mol_composition_increment conv
      (conv.components.zip (conv.paramToMolIncrement x)) =
      Except.ok (conv.paramToMolIncrement x) := by
    unfold make_mol_composition_increment
    rw [isCountsInput_zip_components conv _ hcne hinclen.symm]
    rw [if_pos rfl]
    rw [map_getD_lookup_zip conv.components _ hnd hinclen.symm]
  have hincax : make_mol_composition_increment conv (conv.axisNames.zip x) =
      Except.ok (conv.paramToMolIncrement x) := by
    unfold make_mol_composition_increment
    rw [isCountsInput_zip_axisNames_eq_false conv x hene hx hdisj]
    rw [if_neg (by simp)]
    rw [isAxesInput_zip_axisNames conv x hene hx]
    rw [if_pos rfl, haxes]
  refine ⟨?_, ?_, ?_, ?_, hmollen, hinclen⟩
  · rw [make_conditions, hmol]; rfl
  · rw [make_conditions, hmolax]; rfl
  · rw [make_conditions_increment, hinc]; rfl
  · rw [make_conditions_increment, hincax]; rfl

/-- The ZrO composition converter of the unit tests: components Zr, Va, O,
origin (2, 2, 0) and one end member (2, 0, 2). -/
def zrOCompositionConverter : CompositionConverter where
  components := ["Zr", "Va", "O"]
  origin := [2, 2, 0]
  end_members := [[2, 0, 2]]

/-- C9 witness: for the ZrO converter, temperature 300 with counts
Zr = 2, Va = 1, O = 1 and with axis value a = 1/2 produce the identical
two-entry conditions map, with mol composition (2, 1, 1). -/
theorem C9_make_conditions_equivalence_witness :
    make_conditions 300 zrOCompositionConverter
        [("Zr", (2 : ℚ)), ("Va", 1), ("O", 1)] =
      Except.ok [("temperature", [300]), ("mol_composition", [2, 1, 1])] ∧
    make_conditions 300 zrOCompositionConverter [("a", (1 : ℚ)/2)] =
      Except.ok [("temperature", [300]), ("mol_composition", [2, 1, 1])] := by
  have h := C9_make_conditions_equivalence 300 zrOCompositionConverter [1/2]
    (by decide) (by decide) (by decide) (by decide) (by decide) (by decide)
    (by decide)
  have hmolinc : zrOCompositionConverter.paramToMolIncrement [1/2] =
      [0, -1, 1] := by
    simp only [CompositionConverter.paramToMolIncrement, zrOCompositionConverter]
    norm_num [List.range_succ]
  have hmol : zrOCompositionConverter.paramToMol [1/2] = [2, 1, 1] := by
    rw [CompositionConverter.paramToMol, hmolinc]
    norm_num [vadd, zrOCompositionConverter]
  obtain ⟨h1, h2, _, _, _, _⟩ := h
  rw [hmol] at h1 h2
  constructor
  · have hzip : zrOCompositionConverter.components.zip
        ([2, 1, 1] : List ℚ) = [("Zr", (2 : ℚ)), ("Va", 1), ("O", 1)] := rfl
    rw [hzip] at h1
    exact h1
  · have ha : zrOCompositionConverter.axisNames = ["a"] := by decide
    have hzip : zrOCompositionConverter.axisNames.zip ([1/2] : List ℚ) =
        [("a", (1 : ℚ)/2)] := by
      rw [ha]
      rfl
    rw [hzip] at h2
    exact h2

/-! ## Conditions input parsers

Embedding of parse_temperature, parse_mol_composition and
parse_mol_composition_increment from
include/casm/clexmonte/system/parse_conditions.hh (src/unnamed/part_001).
JSON input is modelled as a small value type; an InputParser holds the
JSON object being parsed (self), the optional value under construction,
and the accumulated errors, each a (path, message) pair; valid() is the
absence of errors.  A C++ std::runtime_error escaping to the caller is
modelled as Except.error; errors recorded on the parser leave the call
returning Except.ok. -/

/-- A JSON value (only the shapes these parsers inspect). -/
inductive Json where
  | num (q : ℚ)
  | str (s : String)
  | dict (m : List (String × Json))
  | arr (l : List Json)

/-- monte::ValueMap: named scalar values and named vector values. -/
structure ValueMap where
  scalar_values : List (String × ℚ)
  vector_values : List (String × List ℚ)

/-- InputParser over a monte::ValueMap: the JSON object being parsed, the
value under construction (null when construction already failed), and the
recorded errors. -/
structure InputParser where
  self : List (String × Json)
  value : Option ValueMap
  errors : List (String × String)

/-- parser.valid(): no error has been recorded. -/
def InputParser.valid (p : InputParser) : Bool :=
  p.errors.isEmpty

/-- Read a JSON value as a dict of numbers (the shape parser.optional
reads into a map from string to double). -/
def asNumberDict : Json → Option (List (String × ℚ))
  | Json.dict m =>
    m.foldr (fun e acc =>
      match e.2, acc with
      | Json.num q, some l => some ((e.1, q) :: l)
      | _, _ => none) (some [])
  | _ => none

/-- parser.optional into a dict of numbers: the empty dict when the key is
absent or the value has another shape. -/
def optionalDict (self : List (String × Json)) (k : String) :
    List (String × ℚ) :=
  match List.lookup k self with
  | some j => (asNumberDict j).getD []
  | none => []

/-- The option the composition parsers read: "mol_composition" when
present, else "param_composition" when present, else the empty string. -/
def chosenOption (self : List (String × Json)) : String :=
  if (List.lookup "mol_composition" self).isSome then "mol_composition"
  else if (List.lookup "param_composition" self).isSome then
    "param_composition"
  else ""

/-- The composition dict read from the chosen option. -/
def compositionInput (self : List (String × Json)) : List (String × ℚ) :=
  optionalDict self (chosenOption self)

/-- The error recorded when neither "mol_composition" nor
"param_composition" is present. -/
def missingErrs (self : List (String × Json)) : List (String × String) :=
  if (List.lookup "mol_composition" self).isSome ∨
      (List.lookup "param_composition" self).isSome then []
  else [("", "Missing one of mol_composition or param_composition")]

/-- parse_temperature: throws when the parser has a null value; requires
the "temperature" option, recording an error under "temperature" when it
is missing or not a number (the written scalar defaults to 0 then, as the
map subscript default-inserts). -/
def parse_temperature (p : InputParser) : Except String InputParser :=
  match p.value with
  | none => Except.error
      "Error in parse_temperature: parser must have non-empty value"
  | some v =>
    match List.lookup "temperature" p.self with
    | some (Json.num t) =>
      Except.ok { p with value := some { v with
        scalar_values := ("temperature", t) :: v.scalar_values } }
    | some _ =>
      Except.ok { p with
        value := some { v with scalar_values :=
          ("temperature", 0) :: v.scalar_values },
        errors := p.errors ++
          [("temperature", "Error: could not construct number")] }
    | none =>
      Except.ok { p with
        value := some { v with scalar_values :=
          ("temperature", 0) :: v.scalar_values },
        errors := p.errors ++
          [("temperature", "Error: missing required option temperature")] }

/-- parse_mol_composition: throws when the parser has a null value;
otherwise reads "mol_composition" or "param_composition", recording an
error when neither is present, and stores the constructed mol composition,
recording an error under the chosen option when construction fails. -/
def parse_mol_composition (conv : CompositionConverter) (p : InputParser) :
    Except String InputParser :=
  match p.value with
  | none => Except.error
      "Error in parse_mol_composition: parser must have non-empty value"
  | some v =>
    match make_mol_composition conv (compositionInput p.self) with
    | Except.ok mol =>
      Except.ok { p with
        errors := p.errors ++ missingErrs p.self,
        value := some { v with vector_values :=
          ("mol_composition", mol) :: v.vector_values } }
    | Except.error e =>
      Except.ok { p with
        errors := p.errors ++ missingErrs p.self ++
          [(chosenOption p.self,
            "Error: could not construct composition from option: " ++ e)] }

/-- parse_mol_composition_increment: identical to parse_mol_composition
except that the dict is interpreted as an increment. -/
def parse_mol_composition_increment (conv : CompositionConverter)
    (p : InputParser) : Except String InputParser :=
  match p.value with
  | none => Except.error
      "Error in parse_mol_composition_increment: parser must have non-empty value"
  | some v =>
    match make_mol_composition_increment conv (compositionInput p.self) with
    | Except.ok mol =>
      Except.ok { p with
        errors := p.errors ++ missingErrs p.self,
        value := some { v with vector_values :=
          ("mol_composition", mol) :: v.vector_values } }
    | Except.error e =>
      Except.ok { p with
        errors := p.errors ++ missingErrs p.self ++
          [(chosenOption p.self,
            "Error: could not construct composition increment from option: "
              ++ e)] }

theorem isEmpty_append_cons {α : Type} (l1 l2 : List α) (a : α) :
    (l1 ++ a :: l2).isEmpty = false := by
  cases l1 <;> rfl

theorem isEmpty_append3 {α : Type} (l1 l2 l3 : List α) (a : α) :
    (l1 ++ l2 ++ a :: l3).isEmpty = false := by
  cases l1 <;> cases l2 <;> rfl

theorem parse_temperature_isOk (p : InputParser) (v : ValueMap)
    (hpv : p.value = some v) :
    ∃ p2, parse_temperature p = Except.ok p2 := by
  unfold parse_temperature
  rw [hpv]
  cases hlk : List.lookup "temperature" p.self with
  | none => exact ⟨_, rfl⟩
  | some j => cases j <;> exact ⟨_, rfl⟩

theorem parse_mol_composition_isOk (conv : CompositionConverter)
    (p : InputParser) (v : ValueMap) (hpv : p.value = some v) :
    ∃ p2, parse_mol_composition conv p = Except.ok p2 := by
  unfold parse_mol_composition
  rw [hpv]
  cases make_mol_composition conv (compositionInput p.self) <;> exact ⟨_, rfl⟩

theorem parse_mol_composition_increment_isOk (conv : CompositionConverter)
    (p : InputParser) (v : ValueMap) (hpv : p.value = some v) :
    ∃ p2, parse_mol_composition_increment conv p = Except.ok p2 := by
  unfold parse_mol_composition_increment
  rw [hpv]
  cases make_mol_composition_increment conv (compositionInput p.self) <;>
    exact ⟨_, rfl⟩

/-- C10: each of the three parse functions throws (models the C++
std::runtime_error) exactly when the parser value pointer is null; with a
non-null value failures never throw: when neither "mol_composition" nor
"param_composition" is present, or when composition construction fails, an
error is recorded so the parser is no longer valid, and parse_temperature
records an error when the required "temperature" key is missing. -/
theorem C10_parse_conditions_error_handling (conv : CompositionConverter)
    (p : InputParser) :
    ((∃ e, parse_temperature p = Except.error e) ↔ p.value = none) ∧
    ((∃ e, parse_mol_composition conv p = Except.error e) ↔
      p.value = none) ∧
    ((∃ e, parse_mol_composition_increment conv p = Except.error e) ↔
      p.value = none) ∧
    (p.value ≠ none →
      List.lookup "mol_composition" p.self = none →
      List.lookup "param_composition" p.self = none →
      (∃ p2, parse_mol_composition conv p = Except.ok p2 ∧
        p2.valid = false) ∧
      (∃ p2, parse_mol_composition_increment conv p = Except.ok p2 ∧
        p2.valid = false)) ∧
    (p.value ≠ none →
      (∃ e, make_mol_composition conv (compositionInput p.self) =
        Except.error e) →
      ∃ p2, parse_mol_composition conv p = Except.ok p2 ∧
        p2.valid = false) ∧
    (p.value ≠ none →
      (∃ e, make_mol_composition_increment conv (compositionInput p.self) =
        Except.error e) →
      ∃ p2, parse_mol_composition_increment conv p = Except.ok p2 ∧
        p2.valid = false) ∧
    (p.value ≠ none → List.lookup "temperature" p.self = none →
      ∃ p2, parse_temperature p = Except.ok p2 ∧ p2.valid = false) := by
  cases hpv : p.value with
  | none =>
    refine ⟨?_, ?_, ?_, ?_, ?_, ?_, ?_⟩
    · exact ⟨fun _ => rfl, fun _ => ⟨_, by rw [parse_temperature, hpv]⟩⟩
    · exact ⟨fun _ => rfl, fun _ => ⟨_, by rw [parse_mol_composition, hpv]⟩⟩
    · exact ⟨fun _ => rfl,
        fun _ => ⟨_, by rw [parse_mol_composition_increment, hpv]⟩⟩
    · intro h; exact absurd rfl h
    · intro h; exact absurd rfl h
    · intro h; exact absurd rfl h
    · intro h; exact absurd rfl h
  | some v =>
    have hnotnone : p.value ≠ none := by rw [hpv]; exact fun h => by cases h
    refine ⟨?_, ?_, ?_, ?_, ?_, ?_, ?_⟩
    · constructor
      · rintro ⟨e, he⟩
        obtain ⟨p2, hok⟩ := parse_temperature_isOk p v hpv
        rw [hok] at he
        cases he
      · intro h; exact Option.noConfusion h
    · constructor
      · rintro ⟨e, he⟩
        obtain ⟨p2, hok⟩ := parse_mol_composition_isOk conv p v hpv
        rw [hok] at he
        cases he
      · intro h; exact Option.noConfusion h
    · constructor
      · rintro ⟨e, he⟩
        obtain ⟨p2, hok⟩ := parse_mol_composition_increment_isOk conv p v hpv
        rw [hok] at he
        cases he
      · intro h; exact Option.noConfusion h
    · intro _ hm hpc
      have herrs : missingErrs p.self =
          [("", "Missing one of mol_composition or param_composition")] := by
        simp [missingErrs, hm, hpc]
      constructor
      · unfold parse_mol_composition
        rw [hpv]
        cases make_mol_composition conv (compositionInput p.self) with
        | ok mol =>
          refine ⟨_, rfl, ?_⟩
          simp only [InputParser.valid, herrs]
          exact isEmpty_append_cons _ _ _
        | error e =>
          refine ⟨_, rfl, ?_⟩
          simp only [InputParser.valid, herrs]
          exact isEmpty_append3 _ _ _ _
      · unfold parse_mol_composition_increment
        rw [hpv]
        cases make_mol_composition_increment conv (compositionInput p.self) with
        | ok mol =>
          refine ⟨_, rfl, ?_⟩
          simp only [InputParser.valid, herrs]
          exact isEmpty_append_cons _ _ _
        | error e =>
          refine ⟨_, rfl, ?_⟩
          simp only [InputParser.valid, herrs]
          exact isEmpty_append3 _ _ _ _
    · rintro _ ⟨e, he⟩
      unfold parse_mol_composition
      rw [hpv, he]
      refine ⟨_, rfl, ?_⟩
      simp only [InputParser.valid]
      exact isEmpty_append3 _ _ _ _
    · rintro _ ⟨e, he⟩
      unfold parse_mol_composition_increment
      rw [hpv, he]
      refine ⟨_, rfl, ?_⟩
      simp only [InputParser.valid]
      exact isEmpty_append3 _ _ _ _
    · intro _ hlk
      unfold parse_temperature
      rw [hpv, hlk]
      refine ⟨_, rfl, ?_⟩
      simp only [InputParser.valid]
      exact isEmpty_append_cons _ _ _

/-- An InputParser whose value pointer is null. -/
def nullParser : InputParser := ⟨[], none, []⟩

/-- An InputParser over an empty JSON object, with a fresh value. -/
def emptyParser : InputParser := ⟨[], some ⟨[], []⟩, []⟩

/-- C10 witness: with a null value parse_temperature throws; over an empty
JSON object parse_mol_composition returns normally but invalid, and
parse_temperature records the missing-temperature error. -/
theorem C10_parse_conditions_error_handling_witness :
    (∃ e, parse_temperature nullParser = Except.error e) ∧
    (∃ p2, parse_mol_composition zrOCompositionConverter emptyParser =
      Except.ok p2 ∧ p2.valid = false) ∧
    (∃ p2, parse_temperature emptyParser = Except.ok p2 ∧
      p2.valid = false) := by
  have h1 := C10_parse_conditions_error_handling zrOCompositionConverter
    nullParser
  have h2 := C10_parse_conditions_error_handling zrOCompositionConverter
    emptyParser
  refine ⟨h1.1.mpr rfl, ?_, ?_⟩
  · exact (h2.2.2.2.1 (by simp [emptyParser]) rfl rfl).1
  · exact h2.2.2.2.2.2.2 (by simp [emptyParser]) rfl

end Clexmonte
